import Mathlib

/-!
Verification of the company-profile transactional data service of the
Auths repository (CompanyService / CompanyModel / CompanyController).

The JavaScript source is shallowly embedded: the PostgreSQL store becomes an
explicit `DB` value (list of `company_profile` rows plus the `users` table ids),
every service method becomes a function from `DB` to a result together with the
successor state, and the `try { BEGIN ... COMMIT } catch { ROLLBACK } finally
{ release }` structure of the transactional methods becomes `finishTx`, which
also records the connection events so that resource handling can be stated.
A `failAt` oracle injects a store failure at the n-th statement of a
transaction body, modelling query errors that are not domain errors.
-/

/-- A JavaScript value as it appears in request payloads for the company
service: `undef` models `undefined`, `null` models `null`, `str` a string.
node-postgres binds both `undefined` and `null` as SQL NULL. -/
inductive JsVal where
  | undef
  | null
  | str (s : String)
  deriving DecidableEq, Repr

/-- Binding a JS value as a SQL parameter: `undefined` and `null` become NULL. -/
def bindVal : JsVal → Option String
  | .undef => none
  | .null => none
  | .str s => some s

/-- The JS expression `v || null` bound as a SQL parameter: falsy values
(`undefined`, `null`, the empty string) become NULL. -/
def truthyOrNull : JsVal → Option String
  | .str s => if s = "" then none else some s
  | _ => none

/-- JS truthiness for the payload values we model. -/
def jsTruthy : JsVal → Bool
  | .str s => !(s == "")
  | _ => false

/-- ASCII lower-casing of one character, written on codepoints so that it
reduces definitionally (this is how SQL `LOWER` and JS `toLowerCase` act on
the ASCII data handled here). -/
def lowerChar (c : Char) : Char :=
  if 65 ≤ c.toNat ∧ c.toNat ≤ 90 then Char.ofNat (c.toNat + 32) else c

/-- ASCII upper-casing of one character. -/
def upperChar (c : Char) : Char :=
  if 97 ≤ c.toNat ∧ c.toNat ≤ 122 then Char.ofNat (c.toNat - 32) else c

/-- SQL `LOWER(s)` / JS `s.toLowerCase()` (ASCII). -/
def strToLower (s : String) : String := ⟨s.data.map lowerChar⟩

/-- JS `s.toUpperCase()` (ASCII). -/
def strToUpper (s : String) : String := ⟨s.data.map upperChar⟩

/-- The whitespace characters JS `trim` strips from the inputs we model. -/
def isWsChar (c : Char) : Bool := c == ' ' || c == '\t' || c == '\n' || c == '\r'

/-- JS `s.trim()`: strip leading and trailing whitespace. -/
def strTrim (s : String) : String :=
  ⟨((s.data.dropWhile isWsChar).reverse.dropWhile isWsChar).reverse⟩

/-- One row of the `company_profile` table.  Nullable text columns are
`Option String`; `created_at` / `updated_at` are abstract instants (`Nat`). -/
structure Row where
  id : Nat
  owner_id : Nat
  company_name : Option String
  address : Option String
  city : Option String
  state : Option String
  country : Option String
  postal_code : Option String
  website : Option String
  logo_url : Option String
  banner_url : Option String
  industry : Option String
  founded_date : Option String
  description : Option String
  social_links : Option String
  created_at : Nat
  updated_at : Nat
  deriving DecidableEq, Repr

/-- The store: the `users` table (only the ids matter for the joins used by
the company service), the `company_profile` table, the id the next INSERT
will be given, and the current value of CURRENT_TIMESTAMP. -/
structure DB where
  users : List Nat
  profiles : List Row
  nextId : Nat
  now : Nat
  deriving DecidableEq, Repr

/-- The `profileData` object destructured by `createCompanyProfile`.
A field the caller did not send is `undef`. -/
structure ProfileData where
  company_name : JsVal
  address : JsVal
  city : JsVal
  state : JsVal
  country : JsVal
  postal_code : JsVal
  website : JsVal
  logo_url : JsVal
  banner_url : JsVal
  industry : JsVal
  founded_date : JsVal
  description : JsVal
  social_links : JsVal
  deriving DecidableEq, Repr

/-- Errors a service call can surface: `http s m` is `createError(s, m)` from
`http-errors`; `store` is a query failure coming from the store itself
(connection loss, constraint machinery, ...). -/
inductive SvcError where
  | http (status : Nat) (msg : String)
  | store
  deriving DecidableEq, Repr

/-- Connection events of one pooled client, as issued by the service. -/
inductive Ev where
  | connect
  | begin
  | commit
  | rollback
  | release
  deriving DecidableEq, Repr

/-- Event trace of a transactional method that commits. -/
def okTrace : List Ev := [Ev.connect, Ev.begin, Ev.commit, Ev.release]

/-- Event trace of a transactional method whose body threw: the `catch`
issues ROLLBACK and rethrows, the `finally` releases the client. -/
def errTrace : List Ev := [Ev.connect, Ev.begin, Ev.rollback, Ev.release]

/-- The `try { BEGIN ... COMMIT } catch { ROLLBACK; throw } finally
{ release }` shell shared by the transactional service methods.  On success
the body's state is committed; on any error ROLLBACK discards every write of
the body and the caller observes the initial state; the client is released
on both paths. -/
def finishTx {α : Type} (db : DB) (body : Except SvcError (α × DB)) :
    Except SvcError α × DB × List Ev :=
  match body with
  | .ok (a, db1) => (.ok a, db1, okTrace)
  | .error e => (.error e, db, errTrace)

/-- The row built by the INSERT of `CompanyService.createCompanyProfile`:
`owner_id` and the destructured payload fields, `website`/`logo_url`/
`banner_url`/`founded_date`/`description`/`social_links` passing through
`|| null`, and both timestamps set to CURRENT_TIMESTAMP. -/
def mkRow (db : DB) (userId : Nat) (pd : ProfileData) : Row :=
  { id := db.nextId
    owner_id := userId
    company_name := bindVal pd.company_name
    address := bindVal pd.address
    city := bindVal pd.city
    state := bindVal pd.state
    country := bindVal pd.country
    postal_code := bindVal pd.postal_code
    website := truthyOrNull pd.website
    logo_url := truthyOrNull pd.logo_url
    banner_url := truthyOrNull pd.banner_url
    industry := bindVal pd.industry
    founded_date := truthyOrNull pd.founded_date
    description := truthyOrNull pd.description
    social_links := truthyOrNull pd.social_links
    created_at := db.now
    updated_at := db.now }

/-- Transaction body of `CompanyService.createCompanyProfile`: SELECT the
owner's existing profile (statement 0), fail 409 if one exists, then INSERT
(statement 1); statement index 2 stands for the COMMIT itself failing. -/
def createTxBody (db : DB) (userId : Nat) (pd : ProfileData) (failAt : Option Nat) :
    Except SvcError (Row × DB) :=
  if failAt = some 0 then .error .store
  else if 0 < (db.profiles.filter (fun r => r.owner_id == userId)).length then
    .error (.http 409 "Company profile already exists for this user")
  else if failAt = some 1 then .error .store
  else
    let row := mkRow db userId pd
    let db1 : DB := { db with profiles := db.profiles ++ [row], nextId := db.nextId + 1 }
    if failAt = some 2 then .error .store
    else .ok (row, db1)

/-- `CompanyService.createCompanyProfile`. -/
def createCompanyProfile (db : DB) (userId : Nat) (pd : ProfileData) (failAt : Option Nat) :
    Except SvcError Row × DB × List Ev :=
  finishTx db (createTxBody db userId pd failAt)

/-- `CompanyService.getCompanyProfileByUserId`: SELECT joined against `users`
on `cp.owner_id = u.id`, `WHERE cp.owner_id = $1`; null when no row. -/
def getCompanyProfileByUserId (db : DB) (userId : Nat) : Option Row :=
  (db.profiles.filter (fun r => r.owner_id == userId && db.users.contains r.owner_id)).head?

/-- Result shape of `CompanyService.deleteCompanyProfile`:
`{ deleted: true, oldImageUrls: { logo_url, banner_url } }`. -/
structure DeleteResult where
  deleted : Bool
  logo_url : Option String
  banner_url : Option String
  deriving DecidableEq, Repr

/-- Transaction body of `CompanyService.deleteCompanyProfile`: SELECT the old
image urls (statement 0), fail 404 if no row, DELETE (statement 1);
statement index 2 stands for the COMMIT itself failing. -/
def deleteTxBody (db : DB) (userId : Nat) (failAt : Option Nat) :
    Except SvcError (DeleteResult × DB) :=
  if failAt = some 0 then .error .store
  else
    match db.profiles.filter (fun r => r.owner_id == userId) with
    | [] => .error (.http 404 "Company profile not found")
    | r :: _ =>
      if failAt = some 1 then .error .store
      else
        let db1 : DB := { db with profiles := db.profiles.filter (fun q => !(q.owner_id == userId)) }
        if failAt = some 2 then .error .store
        else .ok ({ deleted := true, logo_url := r.logo_url, banner_url := r.banner_url }, db1)

/-- `CompanyService.deleteCompanyProfile`. -/
def deleteCompanyProfile (db : DB) (userId : Nat) (failAt : Option Nat) :
    Except SvcError DeleteResult × DB × List Ev :=
  finishTx db (deleteTxBody db userId failAt)

/-- The allow-list of columns eligible for dynamic partial update, exactly as
in `CompanyService.updateCompanyProfile` and `CompanyModel.update`. -/
def allowedFields : List String :=
  ["company_name", "address", "city", "state", "country",
   "postal_code", "website", "logo_url", "banner_url",
   "industry", "founded_date", "description", "social_links"]

/-- `SET f = v` for one allow-listed column name; any other name leaves the
row unchanged (the dynamic query only ever mentions allow-listed names). -/
def setField (r : Row) (f : String) (v : Option String) : Row :=
  match f with
  | "company_name" => { r with company_name := v }
  | "address" => { r with address := v }
  | "city" => { r with city := v }
  | "state" => { r with state := v }
  | "country" => { r with country := v }
  | "postal_code" => { r with postal_code := v }
  | "website" => { r with website := v }
  | "logo_url" => { r with logo_url := v }
  | "banner_url" => { r with banner_url := v }
  | "industry" => { r with industry := v }
  | "founded_date" => { r with founded_date := v }
  | "description" => { r with description := v }
  | "social_links" => { r with social_links := v }
  | _ => r

/-- Reading one allow-listed column of a row (proof-side accessor used to
state which columns an update changed). -/
def getField (r : Row) (f : String) : Option String :=
  match f with
  | "company_name" => r.company_name
  | "address" => r.address
  | "city" => r.city
  | "state" => r.state
  | "country" => r.country
  | "postal_code" => r.postal_code
  | "website" => r.website
  | "logo_url" => r.logo_url
  | "banner_url" => r.banner_url
  | "industry" => r.industry
  | "founded_date" => r.founded_date
  | "description" => r.description
  | "social_links" => r.social_links
  | _ => none

/-- The loop of `CompanyService.updateCompanyProfile` that walks the
allow-list in order and, for each field the payload has as an own property
(whatever its value, `undefined` included), records an assignment. -/
def collectUpdates (payload : List (String × JsVal)) : List (String × JsVal) :=
  allowedFields.filterMap (fun f => (payload.lookup f).map (fun v => (f, v)))

/-- Applying the collected `SET` assignments to a row, each value bound as a
SQL parameter. -/
def applyAssigns (r : Row) (ups : List (String × JsVal)) : Row :=
  ups.foldl (fun acc p => setField acc p.1 (bindVal p.2)) r

/-- One row as rewritten by the dynamic UPDATE: the collected assignments
followed by the appended `updated_at = CURRENT_TIMESTAMP` clause. -/
def applyRowUpdate (ups : List (String × JsVal)) (now : Nat) (r : Row) : Row :=
  { applyAssigns r ups with updated_at := now }

/-- Transaction body of `CompanyService.updateCompanyProfile`: SELECT the
owner's profile (statement 0), fail 404 if none, fail 400 if no allow-listed
field was supplied, UPDATE every row of the owner and return the updated row
(statement 1); statement index 2 stands for the COMMIT itself failing. -/
def updateTxBody (db : DB) (userId : Nat) (payload : List (String × JsVal))
    (failAt : Option Nat) : Except SvcError (Row × DB) :=
  if failAt = some 0 then .error .store
  else
    match db.profiles.filter (fun r => r.owner_id == userId) with
    | [] => .error (.http 404 "Company profile not found")
    | r0 :: _ =>
      let ups := collectUpdates payload
      if ups.length = 0 then .error (.http 400 "No valid fields provided for update")
      else if failAt = some 1 then .error .store
      else
        let newProfiles := db.profiles.map
          (fun q => if q.owner_id == userId then applyRowUpdate ups db.now q else q)
        let db1 : DB := { db with profiles := newProfiles }
        if failAt = some 2 then .error .store
        else .ok (applyRowUpdate ups db.now r0, db1)

/-- `CompanyService.updateCompanyProfile`. -/
def updateCompanyProfile (db : DB) (userId : Nat) (payload : List (String × JsVal))
    (failAt : Option Nat) : Except SvcError Row × DB × List Ev :=
  finishTx db (updateTxBody db userId payload failAt)

/-- Result shape of `CompanyService.updateCompanyImage`:
`RETURNING id, <imageType>`. -/
structure ImageUpdateResult where
  id : Nat
  url : Option String
  deriving DecidableEq, Repr

/-- `CompanyService.updateCompanyImage`: reject any image type other than
`logo_url`/`banner_url` with 400 before any query; a single pooled UPDATE
sets the column and `updated_at`; 404 when no row matched. -/
def updateCompanyImage (db : DB) (userId : Nat) (imageType : String) (imageUrl : String) :
    Except SvcError ImageUpdateResult × DB :=
  if !(["logo_url", "banner_url"].contains imageType) then
    (.error (.http 400 "Invalid image type"), db)
  else
    match db.profiles.filter (fun r => r.owner_id == userId) with
    | [] => (.error (.http 404 "Company profile not found"), db)
    | r :: _ =>
      let newProfiles := db.profiles.map
        (fun q => if q.owner_id == userId then
            { setField q imageType (some imageUrl) with updated_at := db.now } else q)
      let db1 : DB := { db with profiles := newProfiles }
      (.ok { id := r.id, url := some imageUrl }, db1)

/-- `CompanyService.isCompanyNameAvailable`:
`SELECT id WHERE LOWER(company_name) = LOWER($1)`, with
`AND owner_id != $2` appended only when `excludeUserId` is truthy
(a present, nonzero id). -/
def isCompanyNameAvailable (db : DB) (companyName : String) (excludeUserId : Option Nat) : Bool :=
  let base := db.profiles.filter
    (fun r => r.company_name.map strToLower == some (strToLower companyName))
  let rows := match excludeUserId with
    | some uid => if uid = 0 then base else base.filter (fun r => !(r.owner_id == uid))
    | none => base
  rows.length == 0

/-- The loop of `CompanyModel.update` over `Object.entries(updateData)`:
unlike the service's loop it skips keys whose value is `undefined`
(`value !== undefined`).  (`social_links` object values are serialized by the
source; our payload values are already scalars, so binding is the identity.) -/
def modelCollect (payload : List (String × JsVal)) : List (String × JsVal) :=
  payload.filter (fun p => allowedFields.contains p.1 && !(p.2 == JsVal.undef))

/-- `CompanyModel.update`: dynamic update by primary key; throws a plain
`Error('No valid fields to update')` when nothing survives its filter;
`result.rows[0]` is `undefined` (here `none`) when no row has the id. -/
def modelUpdate (db : DB) (id : Nat) (payload : List (String × JsVal)) :
    Except String (Option Row) × DB :=
  let ups := modelCollect payload
  if ups.length = 0 then (.error "No valid fields to update", db)
  else
    let newProfiles := db.profiles.map
      (fun q => if q.id == id then applyRowUpdate ups db.now q else q)
    let db1 : DB := { db with profiles := newProfiles }
    ((.ok (((db.profiles.filter (fun q => q.id == id)).map (applyRowUpdate ups db.now)).head?)), db1)

/-- `CompanyController.updateProfile` after validation: when the payload's
`company_name` is truthy, first check `isCompanyNameAvailable(name, userId)`
and fail 409 if taken, then call the service update. -/
def controllerUpdateProfile (db : DB) (userId : Nat) (payload : List (String × JsVal))
    (failAt : Option Nat) : Except SvcError Row × DB × List Ev :=
  match payload.lookup "company_name" with
  | some (JsVal.str name) =>
    if name ≠ "" ∧ isCompanyNameAvailable db name (some userId) = false then
      (.error (.http 409 "Company name already exists"), db, [])
    else updateCompanyProfile db userId payload failAt
  | _ => updateCompanyProfile db userId payload failAt

/-- Boolean prefix test on character lists (helper for the substring
semantics of SQL `ILIKE '%needle%'`). -/
def listPrefixOf : List Char → List Char → Bool
  | [], _ => true
  | _ :: _, [] => false
  | a :: as, b :: bs => a == b && listPrefixOf as bs

/-- Boolean infix (contiguous substring) test on character lists. -/
def listInfixOf (n : List Char) : List Char → Bool
  | [] => n.isEmpty
  | c :: t => listPrefixOf n (c :: t) || listInfixOf n t

/-- `col ILIKE '%needle%'` for a wildcard-free needle: case-insensitive
substring match; a NULL column yields SQL NULL, which filters the row out. -/
def ilikeContains (col : Option String) (needle : String) : Bool :=
  match col with
  | none => false
  | some h => listInfixOf (strToLower needle).toList (strToLower h).toList

/-- The `filters` argument of `CompanyService.searchCompanies`
(each entry defaulting to the empty string). -/
structure Filters where
  search : String
  industry : String
  city : String
  state : String
  country : String
  deriving DecidableEq, Repr

/-- The `pagination` argument of `CompanyService.searchCompanies`;
`page`/`limit` are JS numbers, which the controller can let through
negative, hence `Int`. -/
structure Pagination where
  page : Int
  limit : Int
  sortBy : String
  sortOrder : String
  deriving DecidableEq, Repr

/-- The `whereConditions` array of `CompanyService.searchCompanies`: one
bound substring predicate per non-empty (after trimming) filter, in source
order; `search` matches `company_name` OR `description`. -/
def whereConds (f : Filters) : List (Row → Bool) :=
  (if (strTrim f.search) = "" then [] else
    [fun r => ilikeContains r.company_name (strTrim f.search) || ilikeContains r.description (strTrim f.search)])
  ++ (if (strTrim f.industry) = "" then [] else [fun r => ilikeContains r.industry (strTrim f.industry)])
  ++ (if (strTrim f.city) = "" then [] else [fun r => ilikeContains r.city (strTrim f.city)])
  ++ (if (strTrim f.state) = "" then [] else [fun r => ilikeContains r.state (strTrim f.state)])
  ++ (if (strTrim f.country) = "" then [] else [fun r => ilikeContains r.country (strTrim f.country)])

/-- The WHERE clause of the search queries: the conjunction of
`whereConds`; with no conditions there is no WHERE clause and every row
passes. -/
def whereClauseHolds (f : Filters) (r : Row) : Bool :=
  (whereConds f).all (fun c => c r)

/-- The sort-field allow-list of `CompanyService.searchCompanies`. -/
def allowedSortFields : List String :=
  ["company_name", "city", "state", "country", "industry", "created_at", "updated_at"]

/-- `validSortBy`: fall back to `created_at` when not allow-listed. -/
def validSortByOf (sortBy : String) : String :=
  if allowedSortFields.contains sortBy then sortBy else "created_at"

/-- `validSortOrder`: uppercase, falling back to `DESC` when not ASC/DESC. -/
def validSortOrderOf (sortOrder : String) : String :=
  if ["ASC", "DESC"].contains (strToUpper sortOrder) then strToUpper sortOrder else "DESC"

/-- Ordering on nullable text columns (NULLs collate last ascending). -/
def leOpt (a b : Option String) : Bool :=
  match a, b with
  | none, none => true
  | none, some _ => false
  | some _, none => true
  | some x, some y => decide (x ≤ y)

/-- `ORDER BY cp.<field>` comparison between two rows for an allow-listed
field (the service only ever interpolates `validSortBy`). -/
def rowLe (f : String) (a b : Row) : Bool :=
  if f = "created_at" then decide (a.created_at ≤ b.created_at)
  else if f = "updated_at" then decide (a.updated_at ≤ b.updated_at)
  else leOpt (getField a f) (getField b f)

/-- `ORDER BY cp.<field> ASC|DESC` over a result set. -/
def sortRows (f ord : String) (l : List Row) : List Row :=
  if ord = "DESC" then l.mergeSort (fun a b => rowLe f b a) else l.mergeSort (rowLe f)

/-- The rows of `company_profile cp JOIN users u ON cp.owner_id = u.id`. -/
def joinedRows (db : DB) : List Row :=
  db.profiles.filter (fun r => db.users.contains r.owner_id)

/-- The `pagination` object of the search response. -/
structure PageMeta where
  currentPage : Int
  totalPages : Int
  totalRecords : Nat
  hasNextPage : Bool
  hasPrevPage : Bool
  deriving DecidableEq, Repr

/-- The search response: data rows plus pagination metadata. -/
structure SearchResult where
  companies : List Row
  pagination : PageMeta
  deriving DecidableEq, Repr

/-- Core of `CompanyService.searchCompanies` (both queries succeed):
data query filtered by the WHERE clause, ordered, `LIMIT limit OFFSET
(page-1)*limit`; count query over the same WHERE clause;
`totalPages = Math.ceil(total/limit)`, `hasNextPage = page < totalPages`,
`hasPrevPage = page > 1`. -/
def searchCompaniesCore (db : DB) (f : Filters) (pgn : Pagination) : SearchResult :=
  let offset := (pgn.page - 1) * pgn.limit
  let matched := (joinedRows db).filter (whereClauseHolds f)
  let sorted := sortRows (validSortByOf pgn.sortBy) (validSortOrderOf pgn.sortOrder) matched
  let total := matched.length
  let totalPages : Int := if pgn.limit ≤ 0 then 0 else ((total : Int) + pgn.limit - 1) / pgn.limit
  { companies := (sorted.drop offset.toNat).take pgn.limit.toNat
    pagination :=
      { currentPage := pgn.page
        totalPages := totalPages
        totalRecords := total
        hasNextPage := decide (pgn.page < totalPages)
        hasPrevPage := decide (1 < pgn.page) } }

/-- `CompanyService.searchCompanies`: PostgreSQL rejects a negative LIMIT or
OFFSET, so those surface as a store error; otherwise both queries run and
the result is assembled by `searchCompaniesCore`. -/
def searchCompanies (db : DB) (f : Filters) (pgn : Pagination) :
    Except SvcError SearchResult :=
  if pgn.limit < 0 ∨ (pgn.page - 1) * pgn.limit < 0 then .error .store
  else .ok (searchCompaniesCore db f pgn)

/-- The search predicate exactly as the spec words it: the conjunction of
the non-empty (after trimming) filters, each a case-insensitive substring
predicate, `search` matching name OR description.  Stated independently of
the incremental `whereConditions` construction so the two can be compared. -/
def specSearchPred (f : Filters) (r : Row) : Bool :=
  (decide ((strTrim f.search) = "") ||
    (ilikeContains r.company_name (strTrim f.search) || ilikeContains r.description (strTrim f.search))) &&
  (decide ((strTrim f.industry) = "") || ilikeContains r.industry (strTrim f.industry)) &&
  (decide ((strTrim f.city) = "") || ilikeContains r.city (strTrim f.city)) &&
  (decide ((strTrim f.state) = "") || ilikeContains r.state (strTrim f.state)) &&
  (decide ((strTrim f.country) = "") || ilikeContains r.country (strTrim f.country))

/-- The rows that satisfy every supplied filter (spec side). -/
def matchedRows (db : DB) (f : Filters) : List Row :=
  (joinedRows db).filter (specSearchPred f)

/-- `q || d` on an optional string parameter (empty string is falsy). -/
def strOr (q : Option String) (d : String) : String :=
  match q with
  | none => d
  | some v => if v = "" then d else v

/-- The query parameters of `GET /api/company/search` that
`CompanyController.searchCompanies` reads (absent = `none`). -/
structure ReqQuery where
  search : Option String
  industry : Option String
  city : Option String
  state : Option String
  country : Option String
  page : Option String
  limit : Option String
  sortBy : Option String
  sortOrder : Option String
  deriving DecidableEq, Repr

/-- The `filters` object built by `CompanyController.searchCompanies`. -/
def controllerFilters (q : ReqQuery) : Filters :=
  { search := strOr q.search ""
    industry := strOr q.industry ""
    city := strOr q.city ""
    state := strOr q.state ""
    country := strOr q.country "" }

/-- Modelled from the spec: the storage layer's case-insensitive unique
constraint on `company_name` (spec data model, section 3).  The repository's
schema file is not usable (it holds an HTML error page), so the constraint
the INSERT of `createCompanyProfile` runs against is taken from the spec's
words; a violating INSERT raises PostgreSQL unique-violation 23505, which
the repository's `errorHandler` maps to HTTP 409.  NULL names never violate
a unique constraint. -/
def nameConstraintViolated (db : DB) (row : Row) : Bool :=
  match row.company_name with
  | none => false
  | some n =>
    0 < (db.profiles.filter
      (fun r => r.company_name.map strToLower == some (strToLower n))).length

/-- `createCompanyProfile` as executed against the spec-modelled store with
the unique constraint on `company_name`: identical to `createTxBody` except
that the INSERT additionally fails 409 (the `errorHandler` mapping of pg
23505) when the new name collides case-insensitively. -/
def createCheckedTxBody (db : DB) (userId : Nat) (pd : ProfileData) (failAt : Option Nat) :
    Except SvcError (Row × DB) :=
  if failAt = some 0 then .error .store
  else if 0 < (db.profiles.filter (fun r => r.owner_id == userId)).length then
    .error (.http 409 "Company profile already exists for this user")
  else if failAt = some 1 then .error .store
  else
    let row := mkRow db userId pd
    if nameConstraintViolated db row then
      .error (.http 409 "Duplicate entry. This record already exists")
    else
      let db1 : DB := { db with profiles := db.profiles ++ [row], nextId := db.nextId + 1 }
      if failAt = some 2 then .error .store
      else .ok (row, db1)

/-- `CompanyService.createCompanyProfile` over the constraint-backed store. -/
def createCompanyProfileChecked (db : DB) (userId : Nat) (pd : ProfileData)
    (failAt : Option Nat) : Except SvcError Row × DB × List Ev :=
  finishTx db (createCheckedTxBody db userId pd failAt)

/-! ### Concrete sample data used by the witness instantiations -/

/-- A payload with every field absent. -/
def pdBlank : ProfileData :=
  { company_name := .undef, address := .undef, city := .undef, state := .undef,
    country := .undef, postal_code := .undef, website := .undef, logo_url := .undef,
    banner_url := .undef, industry := .undef, founded_date := .undef,
    description := .undef, social_links := .undef }

/-- A stored profile owned by user 7. -/
def rowA : Row :=
  { id := 1, owner_id := 7, company_name := some "Acme", address := none,
    city := some "Pune", state := none, country := none, postal_code := none,
    website := none, logo_url := some "A", banner_url := some "B",
    industry := some "tech", founded_date := none, description := none,
    social_links := none, created_at := 0, updated_at := 0 }

/-- A store holding users 7 and 8 and user 7's profile. -/
def dbA : DB := { users := [7, 8], profiles := [rowA], nextId := 2, now := 5 }

/-- A store with no company profiles. -/
def dbEmpty : DB := { users := [7], profiles := [], nextId := 1, now := 0 }

/-- A filter pair as in the spec's example: industry "tech", city "Pune". -/
def fTech : Filters :=
  { search := "", industry := "tech", city := "Pune", state := "", country := "" }

/-- The defaulted pagination of the service (page 1, limit 10). -/
def pgDefault : Pagination :=
  { page := 1, limit := 10, sortBy := "created_at", sortOrder := "DESC" }

/-- A minimal stored profile for user `i`. -/
def mkSimpleRow (i : Nat) : Row :=
  { id := i, owner_id := i, company_name := some (toString i), address := none,
    city := none, state := none, country := none, postal_code := none, website := none,
    logo_url := none, banner_url := none, industry := none, founded_date := none,
    description := none, social_links := none, created_at := i, updated_at := i }

/-- A store with 25 users, each owning a profile. -/
def db25 : DB :=
  { users := List.range 25, profiles := (List.range 25).map mkSimpleRow,
    nextId := 25, now := 100 }

/-- No filters supplied. -/
def fEmpty : Filters :=
  { search := "", industry := "", city := "", state := "", country := "" }

/-- Page 3 at limit 10. -/
def pg3 : Pagination :=
  { page := 3, limit := 10, sortBy := "created_at", sortOrder := "DESC" }

/-- A create payload whose company name collides (case-insensitively) with
`rowA`'s "Acme". -/
def pdAcme : ProfileData := { pdBlank with company_name := JsVal.str "acme" }

/-! ### The transactional contract -/

/-- What the `try/catch/finally` shell guarantees of a transactional call:
on error the observable store is the initial one and the trace shows
ROLLBACK before release, on success the trace shows COMMIT, and the pooled
client is released exactly once, as the last event, on every path. -/
def txContract {α : Type} (db : DB) (out : Except SvcError α × DB × List Ev) : Prop :=
  (out.1.isOk = false → out.2.1 = db ∧ out.2.2 = errTrace)
  ∧ (out.1.isOk = true → out.2.2 = okTrace)
  ∧ out.2.2.getLast? = some Ev.release
  ∧ out.2.2.count Ev.release = 1

theorem finishTx_contract {α : Type} (db : DB) (body : Except SvcError (α × DB)) :
    txContract db (finishTx db body) := by
  cases body with
  | ok p =>
    obtain ⟨a, db1⟩ := p
    refine ⟨?_, fun _ => rfl, rfl, rfl⟩
    intro h
    simp [finishTx, Except.isOk, Except.toBool] at h
  | error e =>
    refine ⟨fun _ => ⟨rfl, rfl⟩, ?_, rfl, rfl⟩
    intro h
    simp [finishTx, Except.isOk, Except.toBool] at h

/-- C1: an owner who already has a company profile cannot create a second
one: the in-transaction existence check fails with Conflict 409
("Company profile already exists for this user"), the transaction rolls
back (trace `connect, BEGIN, ROLLBACK, release`), and the store is returned
exactly as it was: the existing profile is unchanged and no second profile
is inserted. -/
theorem C1_create_conflict (db : DB) (userId : Nat) (pd : ProfileData) (failAt : Option Nat)
    (hf : failAt ≠ some 0) (hex : ∃ r ∈ db.profiles, r.owner_id = userId) :
    createCompanyProfile db userId pd failAt =
      (.error (.http 409 "Company profile already exists for this user"), db, errTrace) := by
  obtain ⟨r, hr, hru⟩ := hex
  have hmem : r ∈ db.profiles.filter (fun q => q.owner_id == userId) :=
    List.mem_filter.mpr ⟨hr, by simp [hru]⟩
  have hpos : 0 < (db.profiles.filter (fun q => q.owner_id == userId)).length :=
    List.length_pos_of_mem hmem
  simp [createCompanyProfile, createTxBody, finishTx, hf, hpos]

theorem C1_create_conflict_witness :
    createCompanyProfile dbA 7 pdBlank none =
      (.error (.http 409 "Company profile already exists for this user"), dbA, errTrace) :=
  C1_create_conflict dbA 7 pdBlank none (by decide) ⟨rowA, by simp [dbA], rfl⟩

/-- C2: every transactional operation (create, update, delete) satisfies the
transactional contract: on any error — domain error or injected store
failure at any statement, COMMIT included — the caller observes the initial
store (full rollback, no partial write) and the trace shows ROLLBACK; and on
every exit path the pooled client is released exactly once, as the final
event. -/
theorem C2_transactional (db : DB) (u : Nat) (pd : ProfileData)
    (payload : List (String × JsVal)) (failAt : Option Nat) :
    txContract db (createCompanyProfile db u pd failAt)
    ∧ txContract db (updateCompanyProfile db u payload failAt)
    ∧ txContract db (deleteCompanyProfile db u failAt) :=
  ⟨finishTx_contract _ _, finishTx_contract _ _, finishTx_contract _ _⟩

theorem C2_transactional_witness :
    (deleteCompanyProfile dbEmpty 7 none).1.isOk = false
    ∧ (deleteCompanyProfile dbEmpty 7 none).2.1 = dbEmpty
    ∧ (deleteCompanyProfile dbEmpty 7 none).2.2 = errTrace := by
  have h := ((C2_transactional dbEmpty 7 pdBlank [] none).2.2).1 (by decide)
  exact ⟨by decide, h.1, h.2⟩

/-- C5: deleting an existing profile commits, returns exactly the prior
image URLs, and removes the row, so a subsequent
`getCompanyProfileByUserId` for that owner returns null; deleting for an
owner without a profile fails 404 with the store unchanged. -/
theorem C5_delete_returns_urls (db : DB) (userId : Nat) (r : Row) :
    (db.profiles.filter (fun q => q.owner_id == userId) = [r] →
      deleteCompanyProfile db userId none =
        (.ok { deleted := true, logo_url := r.logo_url, banner_url := r.banner_url },
         { db with profiles := db.profiles.filter (fun q => !(q.owner_id == userId)) }, okTrace)
      ∧ getCompanyProfileByUserId
          { db with profiles := db.profiles.filter (fun q => !(q.owner_id == userId)) } userId
          = none)
    ∧ (db.profiles.filter (fun q => q.owner_id == userId) = [] →
        ∀ failAt, failAt ≠ some 0 →
          deleteCompanyProfile db userId failAt =
            (.error (.http 404 "Company profile not found"), db, errTrace)) := by
  constructor
  · intro hfl
    constructor
    · simp [deleteCompanyProfile, deleteTxBody, finishTx, hfl]
    · simp [getCompanyProfileByUserId]
      intro x _ h _
      exact h
  · intro hfl failAt hf
    simp [deleteCompanyProfile, deleteTxBody, finishTx, hfl, hf]

theorem C5_delete_returns_urls_witness :
    deleteCompanyProfile dbA 7 none =
      (.ok { deleted := true, logo_url := some "A", banner_url := some "B" },
       { dbA with profiles := dbA.profiles.filter (fun q => !(q.owner_id == 7)) }, okTrace)
    ∧ deleteCompanyProfile dbEmpty 9 none =
        (.error (.http 404 "Company profile not found"), dbEmpty, errTrace) := by
  refine ⟨((C5_delete_returns_urls dbA 7 rowA).1 (by decide)).1, ?_⟩
  exact (C5_delete_returns_urls dbEmpty 9 rowA).2 (by decide) none (by decide)

/-- C9: `updateCompanyImage` fails 400 before any query for an image type
other than `logo_url`/`banner_url`, leaving the store untouched; for a valid
type it fails 404 when the owner has no row, and otherwise succeeds,
returning the profile id together with the freshly assigned URL. -/
theorem C9_image_update (db : DB) (userId : Nat) (t url : String) :
    (t ∉ (["logo_url", "banner_url"] : List String) →
      updateCompanyImage db userId t url = (.error (.http 400 "Invalid image type"), db))
    ∧ (t ∈ (["logo_url", "banner_url"] : List String) →
        (db.profiles.filter (fun q => q.owner_id == userId) = [] →
          updateCompanyImage db userId t url =
            (.error (.http 404 "Company profile not found"), db))
        ∧ (∀ r rest, db.profiles.filter (fun q => q.owner_id == userId) = r :: rest →
            (updateCompanyImage db userId t url).1 = .ok { id := r.id, url := some url })) := by
  constructor
  · intro ht
    have h1 : ¬ t = "logo_url" := by intro h; exact ht (by simp [h])
    have h2 : ¬ t = "banner_url" := by intro h; exact ht (by simp [h])
    simp [updateCompanyImage, h1, h2]
  · intro ht
    rcases (by simpa using ht : t = "logo_url" ∨ t = "banner_url") with rfl | rfl
    · exact ⟨fun hfl => by simp [updateCompanyImage, hfl],
        fun r rest hfl => by simp [updateCompanyImage, hfl]⟩
    · exact ⟨fun hfl => by simp [updateCompanyImage, hfl],
        fun r rest hfl => by simp [updateCompanyImage, hfl]⟩

theorem C9_image_update_witness :
    updateCompanyImage dbA 7 "avatar_url" "X" = (.error (.http 400 "Invalid image type"), dbA)
    ∧ (updateCompanyImage dbA 7 "logo_url" "X").1 = .ok { id := 1, url := some "X" } := by
  refine ⟨(C9_image_update dbA 7 "avatar_url" "X").1 (by decide), ?_⟩
  exact ((C9_image_update dbA 7 "logo_url" "X").2 (by decide)).2 rowA [] (by decide)

/-! ### Field-level lemmas about the dynamic UPDATE -/

theorem setField_id (r : Row) (f : String) (v : Option String) :
    (setField r f v).id = r.id := by
  unfold setField; split <;> rfl

theorem setField_owner (r : Row) (f : String) (v : Option String) :
    (setField r f v).owner_id = r.owner_id := by
  unfold setField; split <;> rfl

theorem setField_created (r : Row) (f : String) (v : Option String) :
    (setField r f v).created_at = r.created_at := by
  unfold setField; split <;> rfl

theorem setField_upd (r : Row) (f : String) (v : Option String) :
    (setField r f v).updated_at = r.updated_at := by
  unfold setField; split <;> rfl

theorem setField_keeps (r : Row) (f : String) (v : Option String) :
    (setField r f v).id = r.id ∧ (setField r f v).owner_id = r.owner_id
    ∧ (setField r f v).created_at = r.created_at
    ∧ (setField r f v).updated_at = r.updated_at :=
  ⟨setField_id r f v, setField_owner r f v, setField_created r f v, setField_upd r f v⟩

theorem setField_col1 (r : Row) (f : String) (v : Option String) :
    (setField r f v).company_name = if f = "company_name" then v else r.company_name := by
  unfold setField; split <;> simp_all

theorem setField_col2 (r : Row) (f : String) (v : Option String) :
    (setField r f v).address = if f = "address" then v else r.address := by
  unfold setField; split <;> simp_all

theorem setField_col3 (r : Row) (f : String) (v : Option String) :
    (setField r f v).city = if f = "city" then v else r.city := by
  unfold setField; split <;> simp_all

theorem setField_col4 (r : Row) (f : String) (v : Option String) :
    (setField r f v).state = if f = "state" then v else r.state := by
  unfold setField; split <;> simp_all

theorem setField_col5 (r : Row) (f : String) (v : Option String) :
    (setField r f v).country = if f = "country" then v else r.country := by
  unfold setField; split <;> simp_all

theorem setField_col6 (r : Row) (f : String) (v : Option String) :
    (setField r f v).postal_code = if f = "postal_code" then v else r.postal_code := by
  unfold setField; split <;> simp_all

theorem setField_col7 (r : Row) (f : String) (v : Option String) :
    (setField r f v).website = if f = "website" then v else r.website := by
  unfold setField; split <;> simp_all

theorem setField_col8 (r : Row) (f : String) (v : Option String) :
    (setField r f v).logo_url = if f = "logo_url" then v else r.logo_url := by
  unfold setField; split <;> simp_all

theorem setField_col9 (r : Row) (f : String) (v : Option String) :
    (setField r f v).banner_url = if f = "banner_url" then v else r.banner_url := by
  unfold setField; split <;> simp_all

theorem setField_col10 (r : Row) (f : String) (v : Option String) :
    (setField r f v).industry = if f = "industry" then v else r.industry := by
  unfold setField; split <;> simp_all

theorem setField_col11 (r : Row) (f : String) (v : Option String) :
    (setField r f v).founded_date = if f = "founded_date" then v else r.founded_date := by
  unfold setField; split <;> simp_all

theorem setField_col12 (r : Row) (f : String) (v : Option String) :
    (setField r f v).description = if f = "description" then v else r.description := by
  unfold setField; split <;> simp_all

theorem setField_col13 (r : Row) (f : String) (v : Option String) :
    (setField r f v).social_links = if f = "social_links" then v else r.social_links := by
  unfold setField; split <;> simp_all

theorem getField_setField (r : Row) (f g : String) (v : Option String)
    (hg : g ∈ allowedFields) :
    getField (setField r f v) g = if f = g then v else getField r g := by
  fin_cases hg <;>
    simp [getField, setField_col1, setField_col2, setField_col3, setField_col4,
      setField_col5, setField_col6, setField_col7, setField_col8, setField_col9,
      setField_col10, setField_col11, setField_col12, setField_col13]

theorem getField_updated_at (x : Row) (n : Nat) (g : String) :
    getField { x with updated_at := n } g = getField x g := by
  unfold getField
  split <;> rfl

theorem applyAssigns_keeps (ups : List (String × JsVal)) (r : Row) :
    (applyAssigns r ups).id = r.id ∧ (applyAssigns r ups).owner_id = r.owner_id
    ∧ (applyAssigns r ups).created_at = r.created_at
    ∧ (applyAssigns r ups).updated_at = r.updated_at := by
  induction ups generalizing r with
  | nil => exact ⟨rfl, rfl, rfl, rfl⟩
  | cons p rest ih =>
    have step : applyAssigns r (p :: rest) = applyAssigns (setField r p.1 (bindVal p.2)) rest := rfl
    rw [step]
    have h1 := setField_keeps r p.1 (bindVal p.2)
    have h2 := ih (setField r p.1 (bindVal p.2))
    exact ⟨h2.1.trans h1.1, h2.2.1.trans h1.2.1, h2.2.2.1.trans h1.2.2.1,
      h2.2.2.2.trans h1.2.2.2⟩

theorem applyRowUpdate_owner (ups : List (String × JsVal)) (n : Nat) (q : Row) :
    (applyRowUpdate ups n q).owner_id = q.owner_id :=
  (applyAssigns_keeps ups q).2.1

theorem lookup_eq_none_of_not_mem_keys {β : Type} (l : List (String × β)) (k : String)
    (h : k ∉ l.map Prod.fst) : l.lookup k = none := by
  induction l with
  | nil => rfl
  | cons p t ih =>
    obtain ⟨a, b⟩ := p
    simp only [List.map_cons, List.mem_cons] at h
    push_neg at h
    have hk : (k == a) = false := by simp [h.1]
    simp [List.lookup, hk, ih h.2]

theorem mem_of_lookup_eq_some {β : Type} (l : List (String × β)) (k : String) (v : β)
    (h : l.lookup k = some v) : (k, v) ∈ l := by
  induction l with
  | nil => simp [List.lookup] at h
  | cons p t ih =>
    obtain ⟨a, b⟩ := p
    by_cases hk : k = a
    · subst hk
      simp [List.lookup] at h
      simp [h]
    · have hk2 : (k == a) = false := by simp [hk]
      simp only [List.lookup, hk2] at h
      exact List.mem_cons_of_mem _ (ih h)

theorem lookup_collect_aux (L : List String) (payload : List (String × JsVal)) (g : String) :
    (L.filterMap (fun f => (payload.lookup f).map (fun v => (f, v)))).lookup g =
      if g ∈ L then payload.lookup g else none := by
  induction L with
  | nil => simp
  | cons a t ih =>
    by_cases hag : g = a
    · subst hag
      cases h : payload.lookup g with
      | none =>
        simp only [List.filterMap_cons, h, Option.map_none']
        rw [ih]
        by_cases hgt : g ∈ t <;> simp [hgt, h]
      | some v => simp [List.filterMap_cons, h, List.lookup]
    · have hk : (g == a) = false := by simp [hag]
      cases h : payload.lookup a with
      | none =>
        simp only [List.filterMap_cons, h, Option.map_none']
        rw [ih]
        simp [hag]
      | some v =>
        simp only [List.filterMap_cons, h, Option.map_some']
        rw [List.lookup, hk, ih]
        simp [hag]

theorem collect_keys_sublist (L : List String) (payload : List (String × JsVal)) :
    ((L.filterMap (fun f => (payload.lookup f).map (fun v => (f, v)))).map Prod.fst).Sublist L := by
  induction L with
  | nil => simp
  | cons a t ih =>
    cases h : payload.lookup a with
    | none =>
      simp only [List.filterMap_cons, h, Option.map_none']
      exact ih.cons a
    | some v =>
      simp only [List.filterMap_cons, h, Option.map_some', List.map_cons]
      exact ih.cons₂ a

theorem getField_applyAssigns (ups : List (String × JsVal)) (r : Row) (g : String)
    (hg : g ∈ allowedFields) (hnd : (ups.map Prod.fst).Nodup) :
    getField (applyAssigns r ups) g =
      ((ups.lookup g).map bindVal).getD (getField r g) := by
  induction ups generalizing r with
  | nil => simp [applyAssigns]
  | cons p rest ih =>
    obtain ⟨f, v⟩ := p
    rw [List.map_cons] at hnd
    have hnd2 := List.nodup_cons.mp hnd
    have step : applyAssigns r ((f, v) :: rest) = applyAssigns (setField r f (bindVal v)) rest := rfl
    rw [step, ih _ hnd2.2]
    by_cases hfg : f = g
    · subst hfg
      have hnone : rest.lookup f = none := lookup_eq_none_of_not_mem_keys rest f hnd2.1
      have hset := getField_setField r f f (bindVal v) hg
      simp [hnone, List.lookup, hset]
    · have hk : (g == f) = false := by simp [Ne.symm hfg]
      cases h : rest.lookup g with
      | some w => simp [List.lookup, hk, h]
      | none => simp [List.lookup, hk, h, getField_setField r f g (bindVal v) hg, hfg]

theorem filter_map_ite (p : Row → Bool) (upd : Row → Row) (l : List Row)
    (hpres : ∀ q, p (upd q) = p q) :
    ((l.map (fun q => if p q then upd q else q)).filter p) = (l.filter p).map upd := by
  induction l with
  | nil => rfl
  | cons a t ih =>
    cases h : p a with
    | true => simp [h, hpres, ih]
    | false => simp [h, hpres, ih]

theorem filter_not_map_ite (p : Row → Bool) (upd : Row → Row) (l : List Row)
    (hpres : ∀ q, p (upd q) = p q) :
    ((l.map (fun q => if p q then upd q else q)).filter (fun q => !(p q)))
      = l.filter (fun q => !(p q)) := by
  induction l with
  | nil => rfl
  | cons a t ih =>
    cases h : p a with
    | true => simp [h, hpres, ih]
    | false => simp [h, hpres, ih]

/-- C3: for an existing profile, `updateCompanyProfile` changes exactly the
supplied allow-listed keys (their values bound as parameters) plus
`updated_at`; `id`, `owner_id`, `created_at` and every unsupplied column
retain their prior values; rows of other owners are untouched; a supplied
key outside the allow-list has no effect at all on the call (silently
ignored); and when no supplied key is allow-listed the call fails
InvalidArgument 400. -/
theorem C3_partial_update :
    (∀ payload : List (String × JsVal),
      (collectUpdates payload = [] ↔ ∀ f ∈ allowedFields, payload.lookup f = none))
    ∧ (∀ (db : DB) (u : Nat) (payload : List (String × JsVal)) (r : Row),
        db.profiles.filter (fun q => q.owner_id == u) = [r] →
        (collectUpdates payload = [] →
          updateCompanyProfile db u payload none =
            (.error (.http 400 "No valid fields provided for update"), db, errTrace))
        ∧ (collectUpdates payload ≠ [] →
            ∃ r1,
              (updateCompanyProfile db u payload none).1 = .ok r1
              ∧ (updateCompanyProfile db u payload none).2.2 = okTrace
              ∧ r1.id = r.id ∧ r1.owner_id = r.owner_id ∧ r1.created_at = r.created_at
              ∧ r1.updated_at = db.now
              ∧ (∀ g ∈ allowedFields,
                  getField r1 g = ((payload.lookup g).map bindVal).getD (getField r g))
              ∧ (updateCompanyProfile db u payload none).2.1.profiles.filter
                    (fun q => q.owner_id == u) = [r1]
              ∧ (updateCompanyProfile db u payload none).2.1.profiles.filter
                    (fun q => !(q.owner_id == u))
                  = db.profiles.filter (fun q => !(q.owner_id == u))))
    ∧ (∀ (db : DB) (u : Nat) (payload : List (String × JsVal)) (failAt : Option Nat)
          (k : String) (v : JsVal), k ∉ allowedFields →
        updateCompanyProfile db u ((k, v) :: payload) failAt =
          updateCompanyProfile db u payload failAt) := by
  refine ⟨?_, ?_, ?_⟩
  · intro payload
    unfold collectUpdates
    rw [List.filterMap_eq_nil_iff]
    constructor
    · intro h f hf
      simpa using h f hf
    · intro h f hf
      simp [h f hf]
  · intro db u payload r hfl
    constructor
    · intro hempty
      simp [updateCompanyProfile, updateTxBody, finishTx, hfl, hempty]
    · intro hne
      have hlen : ¬ (collectUpdates payload).length = 0 := by
        simpa [List.length_eq_zero] using hne
      have hrun1 : (updateCompanyProfile db u payload none).1 =
          .ok (applyRowUpdate (collectUpdates payload) db.now r) := by
        simp [updateCompanyProfile, updateTxBody, finishTx, hfl, hlen]
      have hrun3 : (updateCompanyProfile db u payload none).2.2 = okTrace := by
        simp [updateCompanyProfile, updateTxBody, finishTx, hfl, hlen]
      have hrun2 : (updateCompanyProfile db u payload none).2.1.profiles =
          db.profiles.map (fun q =>
            if q.owner_id == u then applyRowUpdate (collectUpdates payload) db.now q else q) := by
        simp [updateCompanyProfile, updateTxBody, finishTx, hfl, hlen]
      have hpres : ∀ q : Row,
          ((applyRowUpdate (collectUpdates payload) db.now q).owner_id == u)
            = (q.owner_id == u) := by
        intro q
        rw [applyRowUpdate_owner]
      refine ⟨applyRowUpdate (collectUpdates payload) db.now r,
        hrun1, hrun3, (applyAssigns_keeps _ r).1, (applyAssigns_keeps _ r).2.1,
        (applyAssigns_keeps _ r).2.2.1, rfl, ?_, ?_, ?_⟩
      · intro g hg
        have hnd : ((collectUpdates payload).map Prod.fst).Nodup :=
          List.Nodup.sublist (collect_keys_sublist allowedFields payload) (by decide)
        have h1 : getField (applyRowUpdate (collectUpdates payload) db.now r) g
            = getField (applyAssigns r (collectUpdates payload)) g :=
          getField_updated_at _ _ _
        rw [h1, getField_applyAssigns _ _ _ hg hnd]
        have h2 : (collectUpdates payload).lookup g = payload.lookup g := by
          unfold collectUpdates
          rw [lookup_collect_aux]
          simp [hg]
        rw [h2]
      · rw [hrun2,
          filter_map_ite (fun q => q.owner_id == u)
            (applyRowUpdate (collectUpdates payload) db.now) db.profiles hpres, hfl]
        rfl
      · rw [hrun2,
          filter_not_map_ite (fun q => q.owner_id == u)
            (applyRowUpdate (collectUpdates payload) db.now) db.profiles hpres]
  · intro db u payload failAt k v hk
    have hcol : collectUpdates ((k, v) :: payload) = collectUpdates payload := by
      unfold collectUpdates
      refine List.filterMap_congr ?_
      intro f hf
      have hne : ¬ f = k := fun h => hk (h ▸ hf)
      have hfk : (f == k) = false := by simp [hne]
      simp [List.lookup, hfk]
    simp only [updateCompanyProfile, updateTxBody, hcol]

theorem C3_partial_update_witness :
    updateCompanyProfile dbA 7 [("owner_id", JsVal.str "999")] none =
      (.error (.http 400 "No valid fields provided for update"), dbA, errTrace)
    ∧ updateCompanyProfile dbA 7 [("owner_id", JsVal.str "999"), ("city", JsVal.str "X")] none =
        updateCompanyProfile dbA 7 [("city", JsVal.str "X")] none := by
  refine ⟨(C3_partial_update.2.1 dbA 7 [("owner_id", JsVal.str "999")] rowA
    (by decide)).1 (by decide), ?_⟩
  exact C3_partial_update.2.2 dbA 7 [("city", JsVal.str "X")] none "owner_id"
    (JsVal.str "999") (by decide)

/-- C10: in `CompanyService.updateCompanyProfile` a payload key present with
value `undefined` counts as supplied: even when every supplied value is
`undefined` the call does not fail InvalidArgument but commits, binding the
column as NULL (`city` becomes NULL here) — whereas `CompanyModel.update`
skips `undefined`-valued keys and throws "No valid fields to update" on the
same payload, so the two update implementations disagree. -/
theorem C10_undefined_values (db : DB) (u id2 : Nat) (payload : List (String × JsVal)) (r : Row)
    (hundef : ∀ p ∈ payload, p.2 = JsVal.undef) :
    (db.profiles.filter (fun q => q.owner_id == u) = [r] →
      payload.lookup "city" ≠ none →
      ∃ r1 db1, updateCompanyProfile db u payload none = (.ok r1, db1, okTrace)
        ∧ r1.city = none)
    ∧ modelUpdate db id2 payload = (.error "No valid fields to update", db) := by
  constructor
  · intro hfl hcity
    have hne : collectUpdates payload ≠ [] := by
      intro h
      have h2 : (collectUpdates payload).lookup "city" = payload.lookup "city" := by
        unfold collectUpdates
        rw [lookup_collect_aux]
        simp [allowedFields]
      rw [h] at h2
      exact hcity h2.symm
    have hlen : ¬ (collectUpdates payload).length = 0 := by
      simpa [List.length_eq_zero] using hne
    obtain ⟨v, hv⟩ : ∃ v, payload.lookup "city" = some v := by
      cases h : payload.lookup "city" with
      | none => exact absurd h hcity
      | some v => exact ⟨v, rfl⟩
    have hvu : v = JsVal.undef := hundef _ (mem_of_lookup_eq_some payload "city" v hv)
    subst hvu
    refine ⟨applyRowUpdate (collectUpdates payload) db.now r,
      (updateCompanyProfile db u payload none).2.1, ?_, ?_⟩
    · have hrun1 : (updateCompanyProfile db u payload none).1 =
          .ok (applyRowUpdate (collectUpdates payload) db.now r) := by
        simp [updateCompanyProfile, updateTxBody, finishTx, hfl, hlen]
      have hrun3 : (updateCompanyProfile db u payload none).2.2 = okTrace := by
        simp [updateCompanyProfile, updateTxBody, finishTx, hfl, hlen]
      exact Prod.ext hrun1 (Prod.ext rfl hrun3)
    · have hnd : ((collectUpdates payload).map Prod.fst).Nodup :=
        List.Nodup.sublist (collect_keys_sublist allowedFields payload) (by decide)
      have h1 : getField (applyRowUpdate (collectUpdates payload) db.now r) "city"
          = getField (applyAssigns r (collectUpdates payload)) "city" :=
        getField_updated_at _ _ _
      have h3 : (applyRowUpdate (collectUpdates payload) db.now r).city
          = getField (applyRowUpdate (collectUpdates payload) db.now r) "city" := rfl
      rw [h3, h1, getField_applyAssigns _ _ _ (by decide) hnd]
      have h2 : (collectUpdates payload).lookup "city" = payload.lookup "city" := by
        unfold collectUpdates
        rw [lookup_collect_aux]
        simp [allowedFields]
      rw [h2, hv]
      rfl
  · have hcol : modelCollect payload = [] := by
      refine List.filter_eq_nil_iff.mpr ?_
      intro p hp
      simp [hundef p hp]
    simp [modelUpdate, hcol]

theorem C10_undefined_values_witness :
    (updateCompanyProfile dbA 7 [("city", JsVal.undef)] none).1.isOk = true
    ∧ modelUpdate dbA 1 [("city", JsVal.undef)] = (.error "No valid fields to update", dbA) := by
  have h := C10_undefined_values dbA 7 1 [("city", JsVal.undef)] rowA (by decide)
  obtain ⟨r1, db1, heq, -⟩ := h.1 (by decide) (by decide)
  refine ⟨?_, h.2⟩
  rw [heq]
  rfl

/-! ### Search lemmas -/

theorem whereClause_eq_specPred (f : Filters) (r : Row) :
    whereClauseHolds f r = specSearchPred f r := by
  by_cases h1 : (strTrim f.search) = "" <;> by_cases h2 : (strTrim f.industry) = "" <;>
    by_cases h3 : (strTrim f.city) = "" <;> by_cases h4 : (strTrim f.state) = "" <;>
    by_cases h5 : (strTrim f.country) = "" <;>
    simp [whereClauseHolds, whereConds, specSearchPred, h1, h2, h3, h4, h5,
      Bool.and_assoc]

theorem mem_sortRows (f o : String) (l : List Row) (a : Row) :
    a ∈ sortRows f o l ↔ a ∈ l := by
  unfold sortRows
  split_ifs <;> exact List.mem_mergeSort

theorem length_sortRows (f o : String) (l : List Row) :
    (sortRows f o l).length = l.length := by
  unfold sortRows
  split_ifs <;> exact List.length_mergeSort l

theorem filter_where_eq_matched (db : DB) (f : Filters) :
    (joinedRows db).filter (whereClauseHolds f) = matchedRows db f := by
  unfold matchedRows
  exact List.filter_congr (fun a _ => whereClause_eq_specPred f a)

/-- C6: the WHERE clause built by `searchCompanies` is exactly the
conjunction of the non-empty (after trimming) filters, each a
case-insensitive substring predicate with `search` matching name OR
description (as the spec words it in `specSearchPred`); with every filter
empty no condition is pushed, so every joined row matches; every returned
row satisfies all supplied predicates; and whenever the pagination window
covers the whole result set (page 1, limit at least the match count) a row
is returned iff it satisfies all supplied predicates. -/
theorem C6_filter_composition :
    (∀ f r, whereClauseHolds f r = specSearchPred f r)
    ∧ (∀ f : Filters, (strTrim f.search) = "" → (strTrim f.industry) = "" →
        (strTrim f.city) = "" → (strTrim f.state) = "" → (strTrim f.country) = "" →
        whereConds f = [])
    ∧ (∀ db f, (joinedRows db).filter (whereClauseHolds f) = matchedRows db f)
    ∧ (∀ db f pgn,
        (searchCompaniesCore db f pgn).pagination.totalRecords = (matchedRows db f).length)
    ∧ (∀ db f pgn r, r ∈ (searchCompaniesCore db f pgn).companies →
        r ∈ joinedRows db ∧ specSearchPred f r = true)
    ∧ (∀ db f pgn, pgn.page = 1 → (matchedRows db f).length ≤ pgn.limit.toNat →
        ∀ r, (r ∈ (searchCompaniesCore db f pgn).companies ↔
          (r ∈ joinedRows db ∧ specSearchPred f r = true))) := by
  refine ⟨whereClause_eq_specPred, ?_, filter_where_eq_matched, ?_, ?_, ?_⟩
  · intro f h1 h2 h3 h4 h5
    simp [whereConds, h1, h2, h3, h4, h5]
  · intro db f pgn
    simp only [searchCompaniesCore]
    rw [filter_where_eq_matched]
  · intro db f pgn r hr
    simp only [searchCompaniesCore] at hr
    have h1 : r ∈ sortRows (validSortByOf pgn.sortBy) (validSortOrderOf pgn.sortOrder)
        ((joinedRows db).filter (whereClauseHolds f)) :=
      List.mem_of_mem_drop (List.mem_of_mem_take hr)
    have h2 := (mem_sortRows _ _ _ _).mp h1
    have h3 := List.mem_filter.mp h2
    exact ⟨h3.1, (whereClause_eq_specPred f r) ▸ h3.2⟩
  · intro db f pgn hpage hlen r
    have hoff : ((pgn.page - 1) * pgn.limit).toNat = 0 := by
      simp [hpage]
    have hco : (searchCompaniesCore db f pgn).companies
        = sortRows (validSortByOf pgn.sortBy) (validSortOrderOf pgn.sortOrder)
            ((joinedRows db).filter (whereClauseHolds f)) := by
      simp only [searchCompaniesCore, hoff, List.drop_zero]
      refine List.take_of_length_le ?_
      rw [length_sortRows, filter_where_eq_matched]
      exact hlen
    rw [hco, mem_sortRows, filter_where_eq_matched]
    unfold matchedRows
    rw [List.mem_filter]

theorem C6_filter_composition_witness :
    rowA ∈ (searchCompaniesCore dbA fTech pgDefault).companies ↔
      (rowA ∈ joinedRows dbA ∧ specSearchPred fTech rowA = true) :=
  C6_filter_composition.2.2.2.2.2 dbA fTech pgDefault rfl (by decide) rowA

/-- C7: for any request with page ≥ 1 and limit ≥ 1 both search queries run
(no store error), `currentPage` echoes the page, `hasNextPage` is
`page < totalPages`, `hasPrevPage` is `page > 1`, `totalPages` is exactly
`ceil(total/limit)` (characterized by the two inequalities
`total ≤ totalPages·limit < total + limit`), and the number of returned rows
is `min limit (total - (page-1)·limit)` — i.e. the window starts at
`offset = (page-1)·limit` and holds at most `limit` rows. -/
theorem C7_pagination_math (db : DB) (f : Filters) (pgn : Pagination)
    (hp : 1 ≤ pgn.page) (hl : 1 ≤ pgn.limit) :
    searchCompanies db f pgn = .ok (searchCompaniesCore db f pgn)
    ∧ (searchCompaniesCore db f pgn).pagination.currentPage = pgn.page
    ∧ (searchCompaniesCore db f pgn).pagination.hasNextPage
        = decide (pgn.page < (searchCompaniesCore db f pgn).pagination.totalPages)
    ∧ (searchCompaniesCore db f pgn).pagination.hasPrevPage = decide (1 < pgn.page)
    ∧ ((searchCompaniesCore db f pgn).pagination.totalRecords : Int)
        ≤ (searchCompaniesCore db f pgn).pagination.totalPages * pgn.limit
    ∧ (searchCompaniesCore db f pgn).pagination.totalPages * pgn.limit
        < ((searchCompaniesCore db f pgn).pagination.totalRecords : Int) + pgn.limit
    ∧ (searchCompaniesCore db f pgn).companies.length
        = min pgn.limit.toNat
            ((searchCompaniesCore db f pgn).pagination.totalRecords
              - ((pgn.page - 1) * pgn.limit).toNat) := by
  have hoff0 : 0 ≤ (pgn.page - 1) * pgn.limit := mul_nonneg (by omega) (by omega)
  have hguard : ¬ (pgn.limit < 0 ∨ (pgn.page - 1) * pgn.limit < 0) := by
    push_neg
    exact ⟨by omega, hoff0⟩
  have hL0 : ¬ pgn.limit ≤ 0 := by omega
  have hTP : (searchCompaniesCore db f pgn).pagination.totalPages
      = (((searchCompaniesCore db f pgn).pagination.totalRecords : Int) + pgn.limit - 1)
          / pgn.limit := by
    simp [searchCompaniesCore, hL0]
  have hdm := Int.ediv_add_emod
    (((searchCompaniesCore db f pgn).pagination.totalRecords : Int) + pgn.limit - 1) pgn.limit
  have hm0 := Int.emod_nonneg
    (((searchCompaniesCore db f pgn).pagination.totalRecords : Int) + pgn.limit - 1)
    (by omega : pgn.limit ≠ 0)
  have hmL := Int.emod_lt_of_pos
    (((searchCompaniesCore db f pgn).pagination.totalRecords : Int) + pgn.limit - 1)
    (by omega : 0 < pgn.limit)
  refine ⟨by simp [searchCompanies, hguard], rfl, rfl, rfl, ?_, ?_, ?_⟩
  · rw [hTP, mul_comm]
    linarith [hdm, hm0, hmL]
  · rw [hTP, mul_comm]
    linarith [hdm, hm0, hmL]
  · simp [searchCompaniesCore, length_sortRows]

theorem C7_pagination_math_witness :
    searchCompanies db25 fEmpty pg3 = .ok (searchCompaniesCore db25 fEmpty pg3)
    ∧ (searchCompaniesCore db25 fEmpty pg3).pagination.hasPrevPage = decide (1 < pg3.page)
    ∧ (searchCompaniesCore db25 fEmpty pg3).companies.length
        = min pg3.limit.toNat
            ((searchCompaniesCore db25 fEmpty pg3).pagination.totalRecords
              - ((pg3.page - 1) * pg3.limit).toNat) := by
  have h := C7_pagination_math db25 fEmpty pg3 (by decide) (by decide)
  exact ⟨h.1, h.2.2.2.1, h.2.2.2.2.2.2⟩

/-! ### Controller query normalization (search) -/

/-- C4: creating a profile whose `company_name` collides case-insensitively
with an existing profile fails with Conflict 409 (via the spec-modelled
storage unique constraint, surfaced as the `errorHandler`'s 23505 → 409
mapping), the store left unchanged; and renaming to a name held by a
different owner fails with Conflict 409 ("Company name already exists") at
the controller's `isCompanyNameAvailable` check, before any write. -/
theorem C4_duplicate_name (db : DB) (u : Nat) (pd : ProfileData)
    (payload : List (String × JsVal)) (name : String) (failAt : Option Nat) :
    (failAt ≠ some 0 → failAt ≠ some 1 →
      db.profiles.filter (fun q => q.owner_id == u) = [] →
      pd.company_name = JsVal.str name →
      (∃ r ∈ db.profiles, r.company_name.map strToLower = some (strToLower name)) →
      createCompanyProfileChecked db u pd failAt =
        (.error (.http 409 "Duplicate entry. This record already exists"), db, errTrace))
    ∧ (payload.lookup "company_name" = some (JsVal.str name) → name ≠ "" → u ≠ 0 →
        (∃ r ∈ db.profiles, r.owner_id ≠ u
          ∧ r.company_name.map strToLower = some (strToLower name)) →
        controllerUpdateProfile db u payload failAt =
          (.error (.http 409 "Company name already exists"), db, [])) := by
  constructor
  · rintro hf0 hf1 hown hpd ⟨r, hr, hname⟩
    have hmk : (mkRow db u pd).company_name = some name := by
      simp [mkRow, hpd, bindVal]
    have hmem : r ∈ db.profiles.filter
        (fun q => q.company_name.map strToLower == some (strToLower name)) :=
      List.mem_filter.mpr ⟨hr, by simp [hname]⟩
    have hpos := List.length_pos_of_mem hmem
    have hviol : nameConstraintViolated db (mkRow db u pd) = true := by
      simp only [nameConstraintViolated, hmk]
      simpa using hpos
    simp [createCompanyProfileChecked, createCheckedTxBody, finishTx, hf0, hf1,
      hown, hviol]
  · rintro hlk hname hu ⟨r, hr, howner, hlower⟩
    have hmem : r ∈ (db.profiles.filter
          (fun q => q.company_name.map strToLower == some (strToLower name))).filter
        (fun q => !(q.owner_id == u)) :=
      List.mem_filter.mpr ⟨List.mem_filter.mpr ⟨hr, by simp [hlower]⟩, by simp [howner]⟩
    have hpos := List.length_pos_of_mem hmem
    have hav : isCompanyNameAvailable db name (some u) = false := by
      simp only [isCompanyNameAvailable, if_neg hu, beq_eq_false_iff_ne, ne_eq]
      omega
    simp [controllerUpdateProfile, hlk, hname, hav]

theorem C4_duplicate_name_witness :
    createCompanyProfileChecked dbA 8 pdAcme none =
      (.error (.http 409 "Duplicate entry. This record already exists"), dbA, errTrace)
    ∧ controllerUpdateProfile dbA 8 [("company_name", JsVal.str "Acme")] none =
        (.error (.http 409 "Company name already exists"), dbA, []) := by
  constructor
  · exact (C4_duplicate_name dbA 8 pdAcme [] "acme" none).1 (by decide) (by decide)
      (by decide) rfl ⟨rowA, by simp [dbA], by decide⟩
  · exact (C4_duplicate_name dbA 8 pdBlank [("company_name", JsVal.str "Acme")] "Acme" none).2
      (by decide) (by decide) (by decide) ⟨rowA, by simp [dbA], by decide, by decide⟩
